import Mathlib

set_option maxRecDepth 100000

/-!
Verification of the `azurepg_entra` credential-resolution core and its driver
adapters (psycopg2, psycopg3, SQLAlchemy), shallowly embedded in Lean.

Python strings are embedded as `List Char`, JSON claim values as `JVal`,
decoded claims mappings as association lists, and a credential object as a
total function from a scope string to the token string its `get_token`
returns.  Each embedded operation records the list of scopes it requested,
so that "no token request is made" and "exactly one additional request" are
provable statements about the returned request log.
-/

/-- Python strings, embedded character by character. -/
abbrev Chars := List Char

/-- A JSON claim value as it appears in a decoded token payload. -/
inductive JVal where
  | jstr : Chars → JVal
  | jnum : Int → JVal
  | jbool : Bool → JVal
  | jnull : JVal
deriving DecidableEq, Repr

/-- A decoded claims mapping (a Python dict from claim name to value). -/
abbrev Claims := List (String × JVal)

/-- Dictionary lookup, `claims.get(key)` in Python. -/
def getClaim : Claims → String → Option JVal
  | [], _ => none
  | (k, v) :: rest, key => if k = key then some v else getClaim rest key

/-- Python truthiness of a JSON value: empty strings, zero, `False` and
`None`-like values are falsy. -/
def truthy : JVal → Bool
  | JVal.jstr s => !s.isEmpty
  | JVal.jnum n => decide (n ≠ 0)
  | JVal.jbool b => b
  | JVal.jnull => false

/-- Truthiness of a possibly-absent value (`None` is falsy). -/
def truthyOpt : Option JVal → Bool
  | none => false
  | some v => truthy v

/-- Python `a or b`: evaluates to `a` when `a` is truthy, else to `b`. -/
def pyOr (a b : Option JVal) : Option JVal :=
  if truthyOpt a then a else b

/-- Collapse a falsy resolved username to `none`: the source guards every
use of the resolved username with `if not username`. -/
def truthyFilter (u : Option JVal) : Option JVal :=
  match u with
  | some v => if truthy v then some v else none
  | none => none

/-- Index of the LAST occurrence of `c` in `s` (Python `str.rfind`),
`none` when `c` does not occur. -/
def rfindIdx (c : Char) : Chars → Option Nat
  | [] => none
  | a :: rest =>
    match rfindIdx c rest with
    | some i => some (i + 1)
    | none => if a = c then some 0 else none

/-- The lowercase provider segment the source compares against
(`core.py` line 86 and the identical psycopg2 copy, line 111). -/
def USER_ASSIGNED_SEG : Chars :=
  "providers/microsoft.managedidentity/userassignedidentities".toList

/-- `parse_principal_name` from `core.py` lines 65-89 (the psycopg2 module
contains a character-identical copy, lines 90-114): take the substring
after the last slash provided it is nonempty and the lowercased part
before the last slash ends with the managed-identity provider segment. -/
def parse_principal_name (xms_mirid : Chars) : Option Chars :=
  if xms_mirid.isEmpty then none
  else
    match rfindIdx '/' xms_mirid with
    | none => none
    | some last_slash_index =>
      let beginning := xms_mirid.take last_slash_index
      let principal_name := xms_mirid.drop (last_slash_index + 1)
      if principal_name.isEmpty ||
          !(USER_ASSIGNED_SEG.isSuffixOf (beginning.map Char.toLower)) then
        none
      else
        some principal_name

example :
    parse_principal_name
      ("/subscriptions/s/resourcegroups/g/providers/Microsoft.ManagedIdentity/userAssignedIdentities/mi".toList)
      = some ("mi".toList) := by decide

example : parse_principal_name ("/invalid/path".toList) = none := by decide

example : parse_principal_name [] = none := by decide

/-- The Python exception classes that appear in this codebase.  Note that
`binascii.Error` and `json.JSONDecodeError` are subclasses of `ValueError`
in CPython, so the two internal decode failures of the psycopg2 module are
recorded with their own tags distinct from the library's custom classes
(`errors.py`). -/
inductive ErrClass where
  | valueError
  | indexError
  | attributeError
  | tokenDecodeError
  | usernameExtractionError
  | scopePermissionError
  | credentialValueError
  | entraConnectionValueError
deriving DecidableEq, Repr

/-- A raised Python exception: its class and its message. -/
structure PyExc where
  cls : ErrClass
  msg : String
deriving DecidableEq, Repr

/-- `token.split(".")` from Python: always returns at least one part. -/
def splitOnDot : Chars → List Chars
  | [] => [[]]
  | c :: rest =>
    let r := splitOnDot rest
    if c = '.' then [] :: r
    else
      match r with
      | h :: t => (c :: h) :: t
      | [] => [[c]]

example : splitOnDot ("a.b.c".toList) = ["a".toList, "b".toList, "c".toList] := by decide
example : splitOnDot ("ab".toList) = ["ab".toList] := by decide

/-- Value of a base64url alphabet character. -/
def b64Val (c : Char) : Option Nat :=
  if 'A' ≤ c ∧ c ≤ 'Z' then some (c.toNat - 65)
  else if 'a' ≤ c ∧ c ≤ 'z' then some (c.toNat - 97 + 26)
  else if '0' ≤ c ∧ c ≤ '9' then some (c.toNat - 48 + 52)
  else if c = '-' then some 62
  else if c = '_' then some 63
  else none

/-- Decode groups of base64 sextets into bytes; a trailing group of two or
three characters contributes one or two bytes, a single leftover character
is an error. -/
def b64Groups : List Char → Option (List Nat)
  | [] => some []
  | [_] => none
  | [a, b] => do
    let x ← b64Val a
    let y ← b64Val b
    pure [x * 4 + y / 16]
  | [a, b, c] => do
    let x ← b64Val a
    let y ← b64Val b
    let z ← b64Val c
    pure [x * 4 + y / 16, (y % 16) * 16 + z / 4]
  | a :: b :: c :: d :: rest => do
    let x ← b64Val a
    let y ← b64Val b
    let z ← b64Val c
    let w ← b64Val d
    let tail ← b64Groups rest
    pure ([x * 4 + y / 16, (y % 16) * 16 + z / 4, (z % 4) * 64 + w] ++ tail)

/-- Modelled from the spec: `base64.urlsafe_b64decode` (Python standard
library, not part of this repository).  The spec describes the step only as
"base64url-decodes the middle segment".  CPython is lenient about padding,
so trailing `=` characters are simply discarded before decoding. -/
def base64url_decode (s : Chars) : Option (List Nat) :=
  b64Groups ((s.reverse.dropWhile (fun c => c = '=')).reverse)

/-- Bytes to text, sufficient for the ASCII JSON payloads of Entra tokens. -/
def bytesToChars (bs : List Nat) : Chars :=
  bs.map Char.ofNat

example : (base64url_decode ("e30".toList)).map bytesToChars
    = some ('\x7b' :: '\x7d' :: []) := by decide

/-- JSON whitespace skipping. -/
def skipWs (s : Chars) : Chars :=
  s.dropWhile (fun c => c = ' ' || c = '\t' || c = '\n' || c = '\r')

/-- Body of a JSON string after the opening quote: up to the closing quote,
with no escape sequences (the claim payloads used here contain none). -/
def jsonStrBody : Chars → Option (Chars × Chars)
  | [] => none
  | c :: rest =>
    if c = '"' then some ([], rest)
    else if c = '\\' then none
    else (jsonStrBody rest).map (fun p => (c :: p.1, p.2))

/-- A JSON string literal, starting at its opening quote. -/
def jsonString (s : Chars) : Option (Chars × Chars) :=
  match s with
  | '"' :: rest => jsonStrBody rest
  | _ => none

/-- Digits of a JSON integer. -/
def jsonDigits (s : Chars) : (List Nat × Chars) :=
  match s with
  | c :: rest =>
    if '0' ≤ c ∧ c ≤ '9' then
      let p := jsonDigits rest
      ((c.toNat - 48) :: p.1, p.2)
    else ([], s)
  | [] => ([], [])

/-- A scalar JSON value: string, integer, `true`, `false` or `null`. -/
def jsonScalar (s : Chars) : Option (JVal × Chars) :=
  match skipWs s with
  | '"' :: rest => (jsonStrBody rest).map (fun p => (JVal.jstr p.1, p.2))
  | 't' :: 'r' :: 'u' :: 'e' :: rest => some (JVal.jbool true, rest)
  | 'f' :: 'a' :: 'l' :: 's' :: 'e' :: rest => some (JVal.jbool false, rest)
  | 'n' :: 'u' :: 'l' :: 'l' :: rest => some (JVal.jnull, rest)
  | '-' :: rest =>
    match jsonDigits rest with
    | ([], _) => none
    | (ds, r) => some (JVal.jnum (-(ds.foldl (fun a d => a * 10 + d) 0 : Nat)), r)
  | c :: rest =>
    if '0' ≤ c ∧ c ≤ '9' then
      match jsonDigits (c :: rest) with
      | ([], _) => none
      | (ds, r) => some (JVal.jnum ((ds.foldl (fun a d => a * 10 + d) 0 : Nat)), r)
    else none
  | [] => none

/-- The members of a JSON object after its opening brace, ending at the
closing brace; `fuel` bounds the recursion by the input length. -/
def jsonMembers : Nat → Chars → Option (Claims × Chars)
  | 0, _ => none
  | fuel + 1, s =>
    match jsonString (skipWs s) with
    | none => none
    | some (k, r1) =>
      match skipWs r1 with
      | ':' :: r2 =>
        match jsonScalar r2 with
        | none => none
        | some (v, r3) =>
          match skipWs r3 with
          | ',' :: r4 => (jsonMembers fuel r4).map (fun p => ((String.mk k, v) :: p.1, p.2))
          | '\x7d' :: r4 => some ([(String.mk k, v)], r4)
          | _ => none
      | _ => none

/-- Modelled from the spec: `json.loads` (Python standard library, not part
of this repository) restricted to the shape of token claim payloads — a
single flat JSON object with string keys and scalar values; the spec
describes the step only as "parses as JSON".  Returns `none` when the text
is not such an object. -/
def parseJson (s : Chars) : Option Claims :=
  match skipWs s with
  | '\x7b' :: r =>
    match skipWs r with
    | '\x7d' :: r2 => if (skipWs r2).isEmpty then some [] else none
    | _ =>
      match jsonMembers (r.length + 1) r with
      | some (cs, rest) => if (skipWs rest).isEmpty then some cs else none
      | none => none
  | _ => none

example :
    (base64url_decode ("eyJ1cG4iOiJ1In0".toList)).bind (fun bs => parseJson (bytesToChars bs))
      = some [("upn", JVal.jstr ("u".toList))] := by decide

/-- Scope constant from `core.py` line 10 (the psycopg2 module repeats it,
line 36). -/
def AZURE_DB_FOR_POSTGRES_SCOPE : String :=
  "https://ossrdbms-aad.database.windows.net/.default"

/-- Scope constant from `core.py` line 11 (the psycopg2 module repeats it,
line 37). -/
def AZURE_MANAGEMENT_SCOPE : String :=
  "https://management.azure.com/.default"

/-- A credential object: `get_token(scope).token` as a total function from
the scope string to the returned token string.  Failures of the external
identity provider are outside this model. -/
abbrev Cred := String → Chars

/-- The dictionary returned by `get_entra_conninfo`. -/
structure ConnInfo where
  user : JVal
  password : Chars
deriving DecidableEq, Repr

namespace Core

/-- `decode_jwt` from `core.py` lines 48-63.  The body delegates to
`jwt.decode(token, options=dict(verify_signature=False))` of the external
PyJWT package and returns `None` on any exception.  Modelled from the spec:
"Splits on `.`, base64url-decodes the middle segment, parses as JSON.
Fails ... if the token does not have the expected three-segment shape or
the payload is not valid JSON." -/
def decode_jwt (token : Chars) : Option Claims :=
  match splitOnDot token with
  | [_, payload, _] =>
    let padded := payload ++ List.replicate ((4 - payload.length % 4) % 4) '='
    match base64url_decode padded with
    | none => none
    | some bytes => parseJson (bytesToChars bytes)
  | _ => none

/-- The username expression of `get_entra_conninfo`, `core.py` lines
111-117 (and identically lines 160-166 of the async variant).  Python
parses the conditional expression as
`parse_principal_name(x) if isinstance(x, str) else (None or upn or preferred_username or unique_name)`,
because `or` binds tighter than `... if ... else ...`: when `xms_mirid` is
a string the alternatives after it are never consulted. -/
def resolve_username (claims : Claims) : Option JVal :=
  match getClaim claims "xms_mirid" with
  | some (JVal.jstr s) => (parse_principal_name s).map JVal.jstr
  | _ =>
    pyOr (pyOr (pyOr none (getClaim claims "upn"))
        (getClaim claims "preferred_username"))
      (getClaim claims "unique_name")

/-- `get_entra_conninfo` from `core.py` lines 91-139, instrumented with the
list of scopes requested from the credential. -/
def get_entra_conninfo (credential : Cred) : Except PyExc ConnInfo × List String :=
  let db_token := credential AZURE_DB_FOR_POSTGRES_SCOPE
  match decode_jwt db_token with
  | none =>
    (Except.error ⟨ErrClass.valueError, "Invalid DB token format"⟩,
      [AZURE_DB_FOR_POSTGRES_SCOPE])
  | some db_claims =>
    if db_claims.isEmpty then
      (Except.error ⟨ErrClass.valueError, "Invalid DB token format"⟩,
        [AZURE_DB_FOR_POSTGRES_SCOPE])
    else
      match truthyFilter (resolve_username db_claims) with
      | some v => (Except.ok ⟨v, db_token⟩, [AZURE_DB_FOR_POSTGRES_SCOPE])
      | none =>
        let mgmt_token := credential AZURE_MANAGEMENT_SCOPE
        match decode_jwt mgmt_token with
        | none =>
          (Except.error ⟨ErrClass.valueError, "Invalid management token format"⟩,
            [AZURE_DB_FOR_POSTGRES_SCOPE, AZURE_MANAGEMENT_SCOPE])
        | some mgmt_claims =>
          if mgmt_claims.isEmpty then
            (Except.error ⟨ErrClass.valueError, "Invalid management token format"⟩,
              [AZURE_DB_FOR_POSTGRES_SCOPE, AZURE_MANAGEMENT_SCOPE])
          else
            match truthyFilter (resolve_username mgmt_claims) with
            | some v =>
              (Except.ok ⟨v, db_token⟩,
                [AZURE_DB_FOR_POSTGRES_SCOPE, AZURE_MANAGEMENT_SCOPE])
            | none =>
              (Except.error ⟨ErrClass.valueError,
                  "Could not determine username from token claims. Ensure the identity has the proper Azure AD attributes."⟩,
                [AZURE_DB_FOR_POSTGRES_SCOPE, AZURE_MANAGEMENT_SCOPE])

/-- `get_entra_conninfo_async` from `core.py` lines 141-184: the same steps
with awaited token fetches (the suspension itself has no observable effect
in this model) and a shorter final error message. -/
def get_entra_conninfo_async (credential : Cred) : Except PyExc ConnInfo × List String :=
  let db_token := credential AZURE_DB_FOR_POSTGRES_SCOPE
  match decode_jwt db_token with
  | none =>
    (Except.error ⟨ErrClass.valueError, "Invalid DB token format"⟩,
      [AZURE_DB_FOR_POSTGRES_SCOPE])
  | some db_claims =>
    if db_claims.isEmpty then
      (Except.error ⟨ErrClass.valueError, "Invalid DB token format"⟩,
        [AZURE_DB_FOR_POSTGRES_SCOPE])
    else
      match truthyFilter (resolve_username db_claims) with
      | some v => (Except.ok ⟨v, db_token⟩, [AZURE_DB_FOR_POSTGRES_SCOPE])
      | none =>
        let mgmt_token := credential AZURE_MANAGEMENT_SCOPE
        match decode_jwt mgmt_token with
        | none =>
          (Except.error ⟨ErrClass.valueError, "Invalid management token format"⟩,
            [AZURE_DB_FOR_POSTGRES_SCOPE, AZURE_MANAGEMENT_SCOPE])
        | some mgmt_claims =>
          if mgmt_claims.isEmpty then
            (Except.error ⟨ErrClass.valueError, "Invalid management token format"⟩,
              [AZURE_DB_FOR_POSTGRES_SCOPE, AZURE_MANAGEMENT_SCOPE])
          else
            match truthyFilter (resolve_username mgmt_claims) with
            | some v =>
              (Except.ok ⟨v, db_token⟩,
                [AZURE_DB_FOR_POSTGRES_SCOPE, AZURE_MANAGEMENT_SCOPE])
            | none =>
              (Except.error ⟨ErrClass.valueError,
                  "Could not determine username from token claims."⟩,
                [AZURE_DB_FOR_POSTGRES_SCOPE, AZURE_MANAGEMENT_SCOPE])

end Core

namespace Psycopg2

/-- `decode_jwt` from `psycopg2_entra_id_extension.py` lines 76-88:
`token.split(".")[1]`, pad with `"=" * (4 - len % 4)`, base64url-decode,
`json.loads`.  Indexing `[1]` raises `IndexError` when the token contains
no dot; nothing checks for a third segment.  `binascii.Error` and
`json.JSONDecodeError` are `ValueError` subclasses. -/
def decode_jwt (token : Chars) : Except PyExc Claims :=
  match splitOnDot token with
  | _ :: payload :: _ =>
    let padding := List.replicate (4 - payload.length % 4) '='
    match base64url_decode (payload ++ padding) with
    | none => Except.error ⟨ErrClass.valueError, "Invalid base64-encoded string"⟩
    | some decoded_payload =>
      match parseJson (bytesToChars decoded_payload) with
      | none => Except.error ⟨ErrClass.valueError, "Expecting value"⟩
      | some claims => Except.ok claims
  | _ => Except.error ⟨ErrClass.indexError, "list index out of range"⟩

/-- Calling `parse_principal_name(claims.get("xms_mirid"))` with an
arbitrary Python value (`psycopg2_entra_id_extension.py` lines 135, 146):
a falsy argument returns `None` at the `if not xms_mirid` guard; a truthy
non-string reaches `xms_mirid.rfind` and raises `AttributeError`. -/
def call_parse_principal_name (v : Option JVal) : Except PyExc (Option Chars) :=
  match v with
  | none => Except.ok none
  | some (JVal.jstr s) => Except.ok (parse_principal_name s)
  | some w =>
    if truthy w then
      Except.error ⟨ErrClass.attributeError, "rfind"⟩
    else
      Except.ok none

/-- The username expression of the psycopg2 `get_entra_conninfo`, lines
134-139 (and identically lines 177-182 of its async variant): here the
`or` chain is parenthesised, so a failed `xms_mirid` parse falls through
to `upn` and the later claims. -/
def resolve_username (claims : Claims) : Except PyExc (Option JVal) :=
  match call_parse_principal_name (getClaim claims "xms_mirid") with
  | Except.error e => Except.error e
  | Except.ok principal =>
    Except.ok
      (pyOr (pyOr (pyOr (principal.map JVal.jstr) (getClaim claims "upn"))
          (getClaim claims "preferred_username"))
        (getClaim claims "unique_name"))

/-- `get_entra_conninfo` from `psycopg2_entra_id_extension.py` lines
116-158, instrumented with the requested scopes.  Unlike the core variant
it has no `if not db_claims` emptiness check. -/
def get_entra_conninfo (credential : Cred) : Except PyExc ConnInfo × List String :=
  let db_token := credential AZURE_DB_FOR_POSTGRES_SCOPE
  match decode_jwt db_token with
  | Except.error e => (Except.error e, [AZURE_DB_FOR_POSTGRES_SCOPE])
  | Except.ok db_claims =>
    match resolve_username db_claims with
    | Except.error e => (Except.error e, [AZURE_DB_FOR_POSTGRES_SCOPE])
    | Except.ok username =>
      match truthyFilter username with
      | some v => (Except.ok ⟨v, db_token⟩, [AZURE_DB_FOR_POSTGRES_SCOPE])
      | none =>
        let mgmt_token := credential AZURE_MANAGEMENT_SCOPE
        match decode_jwt mgmt_token with
        | Except.error e =>
          (Except.error e, [AZURE_DB_FOR_POSTGRES_SCOPE, AZURE_MANAGEMENT_SCOPE])
        | Except.ok mgmt_claims =>
          match resolve_username mgmt_claims with
          | Except.error e =>
            (Except.error e, [AZURE_DB_FOR_POSTGRES_SCOPE, AZURE_MANAGEMENT_SCOPE])
          | Except.ok username2 =>
            match truthyFilter username2 with
            | some v =>
              (Except.ok ⟨v, db_token⟩,
                [AZURE_DB_FOR_POSTGRES_SCOPE, AZURE_MANAGEMENT_SCOPE])
            | none =>
              (Except.error ⟨ErrClass.valueError,
                  "Could not determine username from token claims. Ensure the identity has the proper Azure AD attributes."⟩,
                [AZURE_DB_FOR_POSTGRES_SCOPE, AZURE_MANAGEMENT_SCOPE])

/-- `connect_with_entra` from `psycopg2_entra_id_extension.py` lines
199-229, restricted to its credential logic: the final `user` and
`password` keyword arguments handed to `psycopg2.connect`.  When either is
missing (falsy), the token conninfo is fetched, the password is always
replaced by the token, and the user is filled in only when missing. -/
def connect_with_entra (credential : Cred) (user password : Option JVal) :
    Except PyExc (Option JVal × Option JVal) × List String :=
  if !truthyOpt user || !truthyOpt password then
    match get_entra_conninfo credential with
    | (Except.error e, log) => (Except.error e, log)
    | (Except.ok entra_conninfo, log) =>
      let password := some (JVal.jstr entra_conninfo.password)
      let user := if !truthyOpt user then some entra_conninfo.user else user
      (Except.ok (user, password), log)
  else
    (Except.ok (user, password), [])

end Psycopg2

namespace Psycopg3

/-- `SyncEntraConnection.connect` from `psycopg3_entra_id_extension.py`
lines 32-64, restricted to its credential logic (the credential-type
checks are enforced by typing here): same fill-in policy as the psycopg2
adapter, but delegating to the core `get_entra_conninfo`. -/
def SyncEntraConnection_connect (credential : Cred) (user password : Option JVal) :
    Except PyExc (Option JVal × Option JVal) × List String :=
  if !truthyOpt user || !truthyOpt password then
    match Core.get_entra_conninfo credential with
    | (Except.error e, log) => (Except.error e, log)
    | (Except.ok entra_conninfo, log) =>
      let password := some (JVal.jstr entra_conninfo.password)
      let user := if !truthyOpt user then some entra_conninfo.user else user
      (Except.ok (user, password), log)
  else
    (Except.ok (user, password), [])

/-- `AsyncEntraConnection.connect` from `psycopg3_entra_id_extension.py`
lines 70-99: identical policy via the core async variant. -/
def AsyncEntraConnection_connect (credential : Cred) (user password : Option JVal) :
    Except PyExc (Option JVal × Option JVal) × List String :=
  if !truthyOpt user || !truthyOpt password then
    match Core.get_entra_conninfo_async credential with
    | (Except.error e, log) => (Except.error e, log)
    | (Except.ok entra_conninfo, log) =>
      let password := some (JVal.jstr entra_conninfo.password)
      let user := if !truthyOpt user then some entra_conninfo.user else user
      (Except.ok (user, password), log)
  else
    (Except.ok (user, password), [])

/-- `AsyncEntraConnection.connect` from `async_entra_connection.py` lines
17-55: the same policy, but re-raising `TokenDecodeError`,
`UsernameExtractionError` and `ScopePermissionError` as
`EntraConnectionValueError`. -/
def AsyncEntraConnection_connect_wrapping (credential : Cred)
    (user password : Option JVal) :
    Except PyExc (Option JVal × Option JVal) × List String :=
  if !truthyOpt user || !truthyOpt password then
    match Core.get_entra_conninfo_async credential with
    | (Except.error e, log) =>
      if e.cls = ErrClass.tokenDecodeError ∨ e.cls = ErrClass.usernameExtractionError ∨
          e.cls = ErrClass.scopePermissionError then
        (Except.error ⟨ErrClass.entraConnectionValueError,
            "Could not retrieve Entra credentials"⟩, log)
      else
        (Except.error e, log)
    | (Except.ok entra_conninfo, log) =>
      let password := some (JVal.jstr entra_conninfo.password)
      let user := if !truthyOpt user then some entra_conninfo.user else user
      (Except.ok (user, password), log)
  else
    (Except.ok (user, password), [])

end Psycopg3

namespace Sqlalchemy

/-- The `do_connect` listener `provide_token` from `entra_connection.py`
lines 17-43.  Presence is key membership (`"user" in cparams`), not
truthiness: `none` models an absent key.  Only missing fields are filled
in, and core errors of the three custom classes would be re-raised as
`EntraConnectionValueError`. -/
def provide_token (credential : Cred) (user password : Option JVal) :
    Except PyExc (Option JVal × Option JVal) × List String :=
  let has_user := user.isSome
  let has_password := password.isSome
  if !has_user || !has_password then
    match Core.get_entra_conninfo credential with
    | (Except.error e, log) =>
      if e.cls = ErrClass.tokenDecodeError ∨ e.cls = ErrClass.usernameExtractionError ∨
          e.cls = ErrClass.scopePermissionError then
        (Except.error ⟨ErrClass.entraConnectionValueError,
            "Could not retrieve Entra credentials"⟩, log)
      else
        (Except.error e, log)
    | (Except.ok entra_creds, log) =>
      let user := if !has_user then some entra_creds.user else user
      let password := if !has_password then some (JVal.jstr entra_creds.password) else password
      (Except.ok (user, password), log)
  else
    (Except.ok (user, password), [])

end Sqlalchemy

deriving instance DecidableEq for Except

/-- A three-segment token whose payload is the object with only a `sub`
claim (no username-bearing claim). -/
def tokSub : Chars := "h.eyJzdWIiOiJzIn0.s".toList

/-- A three-segment token whose payload carries `upn` equal to `"u"`. -/
def tokUpnU : Chars := "h.eyJ1cG4iOiJ1In0.s".toList

/-- A three-segment token whose payload carries `upn` equal to `"m"`. -/
def tokUpnM : Chars := "h.eyJ1cG4iOiJtIn0.s".toList

/-- A three-segment token whose payload carries both a well-formed
`xms_mirid` user-assigned-identity path (principal name `mi`) and
`upn` equal to `"u@contoso.com"`. -/
def tokBoth : Chars :=
  "h.eyJ4bXNfbWlyaWQiOiIvc3Vic2NyaXB0aW9ucy9zL3Jlc291cmNlZ3JvdXBzL2cvcHJvdmlkZXJzL01pY3Jvc29mdC5NYW5hZ2VkSWRlbnRpdHkvdXNlckFzc2lnbmVkSWRlbnRpdGllcy9taSIsInVwbiI6InVAY29udG9zby5jb20ifQ.s".toList

/-- A credential returning, for every scope, a token with no
username-bearing claims. -/
def credNoUser : Cred := fun _ => tokSub

/-- A credential returning, for every scope, a token with `upn` `"u"`. -/
def credUpn : Cred := fun _ => tokUpnU

/-- A credential whose database-scope token has no username-bearing claim
while its management-scope token carries `upn` `"m"`. -/
def credFallback : Cred := fun scope =>
  if scope = AZURE_MANAGEMENT_SCOPE then tokUpnM else tokSub

/-- A credential whose tokens carry both `xms_mirid` and `upn`. -/
def credBoth : Cred := fun _ => tokBoth

example : Core.decode_jwt tokSub = some [("sub", JVal.jstr ("s".toList))] := by decide

example : Core.get_entra_conninfo credUpn =
    (Except.ok ⟨JVal.jstr ("u".toList), tokUpnU⟩, [AZURE_DB_FOR_POSTGRES_SCOPE]) := by decide

example : Core.get_entra_conninfo credFallback =
    (Except.ok ⟨JVal.jstr ("m".toList), tokSub⟩,
      [AZURE_DB_FOR_POSTGRES_SCOPE, AZURE_MANAGEMENT_SCOPE]) := by decide

example : (Core.get_entra_conninfo credBoth).1 =
    Except.ok ⟨JVal.jstr ("mi".toList), tokBoth⟩ := by decide

example : Psycopg2.get_entra_conninfo credUpn =
    (Except.ok ⟨JVal.jstr ("u".toList), tokUpnU⟩, [AZURE_DB_FOR_POSTGRES_SCOPE]) := by decide

theorem pyOr_none_left (x : Option JVal) : pyOr none x = x := rfl

theorem pyOr_of_truthy {v : JVal} (x : Option JVal) (h : truthy v = true) :
    pyOr (some v) x = some v := by
  simp [pyOr, truthyOpt, h]

theorem truthyFilter_of_truthy {v : JVal} (h : truthy v = true) :
    truthyFilter (some v) = some v := by
  simp [truthyFilter, h]

theorem truthy_jstr_of_ne {u : Chars} (h : u ≠ []) :
    truthy (JVal.jstr u) = true := by
  cases u with
  | nil => exact absurd rfl h
  | cons c cs => rfl

/-- The claims mapping of interest for the fall-through question: an
`xms_mirid` claim that parses to no principal name next to a perfectly
good `upn` claim. -/
def claimsMiridUpn : Claims :=
  [("xms_mirid", JVal.jstr ("noslash".toList)),
   ("upn", JVal.jstr ("user@example.com".toList))]

/-- C1: the claimed priority order requires that an `xms_mirid` claim
yielding no principal name falls through to `upn`.  The psycopg2 variant
does exactly that, but in `core.py` (sync and async use the identical
expression) Python operator precedence parses the chain as
`parse_principal_name(x) if isinstance(x, str) else (...)`, so a string
`xms_mirid` that fails to parse resolves no username at all instead of
falling through to `upn`. -/
theorem c1_core_misses_upn_fallthrough :
    getClaim claimsMiridUpn "xms_mirid" = some (JVal.jstr ("noslash".toList)) ∧
    parse_principal_name ("noslash".toList) = none ∧
    getClaim claimsMiridUpn "upn" = some (JVal.jstr ("user@example.com".toList)) ∧
    Core.resolve_username claimsMiridUpn = none ∧
    Psycopg2.resolve_username claimsMiridUpn =
      Except.ok (some (JVal.jstr ("user@example.com".toList))) := by
  decide

/-- C2 counterexample: a token whose payload contains `upn`
(`"u@contoso.com"`) but whose `xms_mirid` parses to principal name `"mi"`
resolves username `"mi"`, not the `upn` value — the resolution is not
independent of the other claims present. -/
theorem c2_counterexample :
    Core.decode_jwt tokBoth =
      some
        [("xms_mirid",
            JVal.jstr
              ("/subscriptions/s/resourcegroups/g/providers/Microsoft.ManagedIdentity/userAssignedIdentities/mi".toList)),
          ("upn", JVal.jstr ("u@contoso.com".toList))] ∧
    (Core.get_entra_conninfo credBoth).1 =
      Except.ok ⟨JVal.jstr ("mi".toList), tokBoth⟩ ∧
    (Psycopg2.get_entra_conninfo credBoth).1 =
      Except.ok ⟨JVal.jstr ("mi".toList), tokBoth⟩ ∧
    JVal.jstr ("mi".toList) ≠ JVal.jstr ("u@contoso.com".toList) := by
  decide

/-- C2 as amended: for any token whose decoded payload contains a nonempty
`upn` claim and no `xms_mirid` claim, the resolved username equals the
`upn` value regardless of which other claims are present, in the core and
psycopg2 variants alike. -/
theorem c2_amended_upn_resolved (credential : Cred) (db_claims : Claims) (u : Chars)
    (h1 : Core.decode_jwt (credential AZURE_DB_FOR_POSTGRES_SCOPE) = some db_claims)
    (h1p : Psycopg2.decode_jwt (credential AZURE_DB_FOR_POSTGRES_SCOPE) = Except.ok db_claims)
    (h2 : getClaim db_claims "xms_mirid" = none)
    (h3 : getClaim db_claims "upn" = some (JVal.jstr u))
    (h4 : u ≠ []) :
    (Core.get_entra_conninfo credential).1 =
      Except.ok ⟨JVal.jstr u, credential AZURE_DB_FOR_POSTGRES_SCOPE⟩ ∧
    (Psycopg2.get_entra_conninfo credential).1 =
      Except.ok ⟨JVal.jstr u, credential AZURE_DB_FOR_POSTGRES_SCOPE⟩ := by
  have hne : db_claims.isEmpty = false := by
    cases db_claims with
    | nil => simp [getClaim] at h3
    | cons a rest => rfl
  have hres : Core.resolve_username db_claims = some (JVal.jstr u) := by
    simp only [Core.resolve_username, h2]
    rw [pyOr_none_left, h3,
      pyOr_of_truthy _ (truthy_jstr_of_ne h4),
      pyOr_of_truthy _ (truthy_jstr_of_ne h4)]
  have hresP : Psycopg2.resolve_username db_claims = Except.ok (some (JVal.jstr u)) := by
    simp only [Psycopg2.resolve_username, h2, Psycopg2.call_parse_principal_name,
      Option.map_none']
    rw [pyOr_none_left, h3,
      pyOr_of_truthy _ (truthy_jstr_of_ne h4),
      pyOr_of_truthy _ (truthy_jstr_of_ne h4)]
  constructor
  · simp [Core.get_entra_conninfo, h1, hne, hres,
      truthyFilter_of_truthy (truthy_jstr_of_ne h4)]
  · simp [Psycopg2.get_entra_conninfo, h1p, hresP,
      truthyFilter_of_truthy (truthy_jstr_of_ne h4)]

/-- C2 amended witness: the credential whose token carries only `upn`
`"u"` resolves exactly that username in both variants. -/
theorem c2_amended_witness :
    (Core.get_entra_conninfo credUpn).1 =
      Except.ok ⟨JVal.jstr ("u".toList), credUpn AZURE_DB_FOR_POSTGRES_SCOPE⟩ ∧
    (Psycopg2.get_entra_conninfo credUpn).1 =
      Except.ok ⟨JVal.jstr ("u".toList), credUpn AZURE_DB_FOR_POSTGRES_SCOPE⟩ :=
  c2_amended_upn_resolved credUpn [("upn", JVal.jstr ("u".toList))] ("u".toList)
    (by decide) (by decide) (by decide) (by decide) (by decide)

theorem resolve_username_nil : Core.resolve_username [] = none := rfl

/-- C3: whenever the DB-scope token decodes to a (nonempty) claims mapping
that yields no username, the request log is exactly
`[database scope, management scope]` — one additional request, at the
management scope, and no more — and whenever the management claims then
yield a username `v`, the returned record is `{user := v, password :=
database-scope token}`: the password is never the management token. -/
theorem c3_single_management_fallback (credential : Cred) (db_claims : Claims)
    (h1 : Core.decode_jwt (credential AZURE_DB_FOR_POSTGRES_SCOPE) = some db_claims)
    (h2 : db_claims.isEmpty = false)
    (h3 : truthyFilter (Core.resolve_username db_claims) = none) :
    (Core.get_entra_conninfo credential).2 =
      [AZURE_DB_FOR_POSTGRES_SCOPE, AZURE_MANAGEMENT_SCOPE] ∧
    ∀ mgmt_claims v,
      Core.decode_jwt (credential AZURE_MANAGEMENT_SCOPE) = some mgmt_claims →
      truthyFilter (Core.resolve_username mgmt_claims) = some v →
      (Core.get_entra_conninfo credential).1 =
        Except.ok ⟨v, credential AZURE_DB_FOR_POSTGRES_SCOPE⟩ := by
  constructor
  · simp only [Core.get_entra_conninfo, h1, h2, h3]
    cases h4 : Core.decode_jwt (credential AZURE_MANAGEMENT_SCOPE) with
    | none => simp
    | some mgmt_claims =>
      cases h5 : mgmt_claims.isEmpty with
      | true => simp [h5]
      | false =>
        cases h6 : truthyFilter (Core.resolve_username mgmt_claims) with
        | none => simp [h5, h6]
        | some v => simp [h5, h6]
  · intro mgmt_claims v h4 h5
    have h6 : mgmt_claims.isEmpty = false := by
      cases mgmt_claims with
      | nil => rw [resolve_username_nil] at h5; simp [truthyFilter] at h5
      | cons a rest => rfl
    simp [Core.get_entra_conninfo, h1, h2, h3, h4, h5, h6]

/-- C3 witness: a credential whose DB-scope token carries only `sub` and
whose management-scope token carries `upn` `"m"`. -/
theorem c3_single_management_fallback_witness :
    (Core.get_entra_conninfo credFallback).2 =
      [AZURE_DB_FOR_POSTGRES_SCOPE, AZURE_MANAGEMENT_SCOPE] ∧
    (Core.get_entra_conninfo credFallback).1 =
      Except.ok ⟨JVal.jstr ("m".toList), credFallback AZURE_DB_FOR_POSTGRES_SCOPE⟩ := by
  have h := c3_single_management_fallback credFallback
    [("sub", JVal.jstr ("s".toList))] (by decide) (by decide) (by decide)
  exact ⟨h.1, h.2 [("upn", JVal.jstr ("m".toList))] (JVal.jstr ("m".toList))
    (by decide) (by decide)⟩

/-- C7: the core resolution raises the descriptive
"could not determine username" error exactly when both the DB-scope and
the management-scope attempts decode to (nonempty) claims that yield no
username; in that case the request log is exactly the two scopes — no
further token request — and the result is the error, not a record. -/
theorem c7_username_error_iff (credential : Cred) :
    ((Core.get_entra_conninfo credential).1 =
        Except.error ⟨ErrClass.valueError,
          "Could not determine username from token claims. Ensure the identity has the proper Azure AD attributes."⟩ ↔
      (∃ db_claims, Core.decode_jwt (credential AZURE_DB_FOR_POSTGRES_SCOPE) = some db_claims ∧
        db_claims.isEmpty = false ∧
        truthyFilter (Core.resolve_username db_claims) = none) ∧
      (∃ mgmt_claims, Core.decode_jwt (credential AZURE_MANAGEMENT_SCOPE) = some mgmt_claims ∧
        mgmt_claims.isEmpty = false ∧
        truthyFilter (Core.resolve_username mgmt_claims) = none)) ∧
    ((Core.get_entra_conninfo credential).1 =
        Except.error ⟨ErrClass.valueError,
          "Could not determine username from token claims. Ensure the identity has the proper Azure AD attributes."⟩ →
      (Core.get_entra_conninfo credential).2 =
        [AZURE_DB_FOR_POSTGRES_SCOPE, AZURE_MANAGEMENT_SCOPE]) := by
  cases h1 : Core.decode_jwt (credential AZURE_DB_FOR_POSTGRES_SCOPE) with
  | none =>
    have hv1 : (Core.get_entra_conninfo credential).1 =
        Except.error ⟨ErrClass.valueError, "Invalid DB token format"⟩ := by
      simp [Core.get_entra_conninfo, h1]
    rw [hv1]
    refine ⟨⟨fun h => absurd h (by decide), ?_⟩, fun h => absurd h (by decide)⟩
    rintro ⟨⟨dbc, hdc, -, -⟩, -⟩
    exact Option.noConfusion hdc
  | some db_claims =>
    cases h2 : db_claims.isEmpty with
    | true =>
      have hv1 : (Core.get_entra_conninfo credential).1 =
          Except.error ⟨ErrClass.valueError, "Invalid DB token format"⟩ := by
        simp [Core.get_entra_conninfo, h1, h2]
      rw [hv1]
      refine ⟨⟨fun h => absurd h (by decide), ?_⟩, fun h => absurd h (by decide)⟩
      rintro ⟨⟨dbc, hdc, hne, -⟩, -⟩
      obtain rfl : db_claims = dbc := Option.some.inj hdc
      rw [h2] at hne
      exact Bool.noConfusion hne
    | false =>
      cases h3 : truthyFilter (Core.resolve_username db_claims) with
      | some v =>
        have hv1 : (Core.get_entra_conninfo credential).1 =
            Except.ok ⟨v, credential AZURE_DB_FOR_POSTGRES_SCOPE⟩ := by
          simp [Core.get_entra_conninfo, h1, h2, h3]
        rw [hv1]
        refine ⟨⟨fun h => Except.noConfusion h, ?_⟩, fun h => Except.noConfusion h⟩
        rintro ⟨⟨dbc, hdc, -, hres⟩, -⟩
        obtain rfl : db_claims = dbc := Option.some.inj hdc
        rw [h3] at hres
        exact Option.noConfusion hres
      | none =>
        cases h4 : Core.decode_jwt (credential AZURE_MANAGEMENT_SCOPE) with
        | none =>
          have hv1 : (Core.get_entra_conninfo credential).1 =
              Except.error ⟨ErrClass.valueError, "Invalid management token format"⟩ := by
            simp [Core.get_entra_conninfo, h1, h2, h3, h4]
          rw [hv1]
          have hv2 : (Core.get_entra_conninfo credential).2 =
              [AZURE_DB_FOR_POSTGRES_SCOPE, AZURE_MANAGEMENT_SCOPE] := by
            simp [Core.get_entra_conninfo, h1, h2, h3, h4]
          refine ⟨⟨fun h => absurd h (by decide), ?_⟩, fun _ => hv2⟩
          rintro ⟨-, ⟨mc, hmc, -, -⟩⟩
          exact Option.noConfusion hmc
        | some mgmt_claims =>
          cases h5 : mgmt_claims.isEmpty with
          | true =>
            have hv1 : (Core.get_entra_conninfo credential).1 =
                Except.error ⟨ErrClass.valueError, "Invalid management token format"⟩ := by
              simp [Core.get_entra_conninfo, h1, h2, h3, h4, h5]
            rw [hv1]
            have hv2 : (Core.get_entra_conninfo credential).2 =
                [AZURE_DB_FOR_POSTGRES_SCOPE, AZURE_MANAGEMENT_SCOPE] := by
              simp [Core.get_entra_conninfo, h1, h2, h3, h4, h5]
            refine ⟨⟨fun h => absurd h (by decide), ?_⟩, fun _ => hv2⟩
            rintro ⟨-, ⟨mc, hmc, hne, -⟩⟩
            obtain rfl : mgmt_claims = mc := Option.some.inj hmc
            rw [h5] at hne
            exact Bool.noConfusion hne
          | false =>
            cases h6 : truthyFilter (Core.resolve_username mgmt_claims) with
            | some v =>
              have hv1 : (Core.get_entra_conninfo credential).1 =
                  Except.ok ⟨v, credential AZURE_DB_FOR_POSTGRES_SCOPE⟩ := by
                simp [Core.get_entra_conninfo, h1, h2, h3, h4, h5, h6]
              rw [hv1]
              refine ⟨⟨fun h => Except.noConfusion h, ?_⟩, fun h => Except.noConfusion h⟩
              rintro ⟨-, ⟨mc, hmc, -, hres⟩⟩
              obtain rfl : mgmt_claims = mc := Option.some.inj hmc
              rw [h6] at hres
              exact Option.noConfusion hres
            | none =>
              have hv1 : (Core.get_entra_conninfo credential).1 =
                  Except.error ⟨ErrClass.valueError,
                    "Could not determine username from token claims. Ensure the identity has the proper Azure AD attributes."⟩ := by
                simp [Core.get_entra_conninfo, h1, h2, h3, h4, h5, h6]
              have hv2 : (Core.get_entra_conninfo credential).2 =
                  [AZURE_DB_FOR_POSTGRES_SCOPE, AZURE_MANAGEMENT_SCOPE] := by
                simp [Core.get_entra_conninfo, h1, h2, h3, h4, h5, h6]
              rw [hv1]
              exact ⟨⟨fun _ => ⟨⟨db_claims, rfl, h2, h3⟩, ⟨mgmt_claims, rfl, h5, h6⟩⟩,
                fun _ => rfl⟩, fun _ => hv2⟩

/-- C7 witness: a credential with no username-bearing claims at either
scope hits the descriptive error with exactly the two requests. -/
theorem c7_username_error_iff_witness :
    (Core.get_entra_conninfo credNoUser).1 =
      Except.error ⟨ErrClass.valueError,
        "Could not determine username from token claims. Ensure the identity has the proper Azure AD attributes."⟩ ∧
    (Core.get_entra_conninfo credNoUser).2 =
      [AZURE_DB_FOR_POSTGRES_SCOPE, AZURE_MANAGEMENT_SCOPE] := by
  have h := c7_username_error_iff credNoUser
  have herr := h.1.mpr
    ⟨⟨[("sub", JVal.jstr ("s".toList))], by decide, by decide, by decide⟩,
      ⟨[("sub", JVal.jstr ("s".toList))], by decide, by decide, by decide⟩⟩
  exact ⟨herr, h.2 herr⟩

theorem c9_sync_async_equiv (credential : Cred) :
    (Core.get_entra_conninfo credential).2 = (Core.get_entra_conninfo_async credential).2 ∧
    (∀ ci : ConnInfo,
      (Core.get_entra_conninfo credential).1 = Except.ok ci ↔
        (Core.get_entra_conninfo_async credential).1 = Except.ok ci) ∧
    ((∃ e, (Core.get_entra_conninfo credential).1 = Except.error e) ↔
      (∃ e, (Core.get_entra_conninfo_async credential).1 = Except.error e)) := by
  simp only [Core.get_entra_conninfo, Core.get_entra_conninfo_async]
  repeat' split
  all_goals simp_all

theorem core_error_cls (credential : Cred) (e : PyExc)
    (h : (Core.get_entra_conninfo credential).1 = Except.error e) :
    e.cls = ErrClass.valueError := by
  simp only [Core.get_entra_conninfo] at h
  repeat' split at h
  any_goals (obtain rfl := Except.error.inj h)
  all_goals simp_all

theorem core_async_error_cls (credential : Cred) (e : PyExc)
    (h : (Core.get_entra_conninfo_async credential).1 = Except.error e) :
    e.cls = ErrClass.valueError := by
  simp only [Core.get_entra_conninfo_async] at h
  repeat' split at h
  any_goals (obtain rfl := Except.error.inj h)
  all_goals simp_all

/-- C10: every failure of the core resolution (sync and async) is a plain
`ValueError`, never one of the library's custom exception classes; hence
the adapter handlers that catch `TokenDecodeError`,
`UsernameExtractionError` and `ScopePermissionError` to re-wrap them never
fire, and the error reaches the caller unwrapped. -/
theorem c10_value_error_never_wrapped (credential : Cred)
    (user password : Option JVal) (e ea : PyExc)
    (hs : (Core.get_entra_conninfo credential).1 = Except.error e)
    (ha : (Core.get_entra_conninfo_async credential).1 = Except.error ea)
    (hu : user.isSome = false) (hut : truthyOpt user = false) :
    e.cls = ErrClass.valueError ∧ ea.cls = ErrClass.valueError ∧
    (Sqlalchemy.provide_token credential user password).1 = Except.error e ∧
    (Psycopg3.AsyncEntraConnection_connect_wrapping credential user password).1 =
      Except.error ea := by
  have hcls := core_error_cls credential e hs
  have hclsa := core_async_error_cls credential ea ha
  refine ⟨hcls, hclsa, ?_, ?_⟩
  · rcases hp : Core.get_entra_conninfo credential with ⟨r, log⟩
    rw [hp] at hs
    simp only at hs
    subst hs
    simp [Sqlalchemy.provide_token, hp, hu, hcls]
  · rcases hp : Core.get_entra_conninfo_async credential with ⟨r, log⟩
    rw [hp] at ha
    simp only at ha
    subst ha
    simp [Psycopg3.AsyncEntraConnection_connect_wrapping, hp, hut, hclsa]

/-- C10 witness: a credential with no username claims at either scope
produces the `ValueError` and the adapters pass it through unwrapped. -/
theorem c10_value_error_never_wrapped_witness :
    (Core.get_entra_conninfo credNoUser).1 =
      Except.error ⟨ErrClass.valueError,
        "Could not determine username from token claims. Ensure the identity has the proper Azure AD attributes."⟩ ∧
    ErrClass.valueError = ErrClass.valueError ∧
    (Sqlalchemy.provide_token credNoUser none none).1 =
      Except.error ⟨ErrClass.valueError,
        "Could not determine username from token claims. Ensure the identity has the proper Azure AD attributes."⟩ := by
  have h := c10_value_error_never_wrapped credNoUser none none
    ⟨ErrClass.valueError,
      "Could not determine username from token claims. Ensure the identity has the proper Azure AD attributes."⟩
    ⟨ErrClass.valueError, "Could not determine username from token claims."⟩
    (by decide) (by decide) rfl rfl
  exact ⟨by decide, rfl, h.2.2.1⟩

theorem rfindIdx_eq_none_iff (c : Char) (s : Chars) :
    rfindIdx c s = none ↔ c ∉ s := by
  induction s with
  | nil => simp [rfindIdx]
  | cons a rest ih =>
    simp only [rfindIdx]
    cases hr : rfindIdx c rest with
    | some i =>
      have hmem : c ∈ rest := by
        by_contra hc
        rw [ih.mpr hc] at hr
        exact Option.noConfusion hr
      simp [List.mem_cons, hmem]
    | none =>
      have hnm : c ∉ rest := ih.mp hr
      by_cases hac : a = c
      · simp [hac, List.mem_cons]
      · simp [hac, List.mem_cons, hnm]
        exact fun hca => hac hca.symm

theorem rfindIdx_eq_some_iff (c : Char) (s : Chars) (i : Nat) :
    rfindIdx c s = some i ↔
      ∃ pre post, s = pre ++ c :: post ∧ pre.length = i ∧ c ∉ post := by
  induction s generalizing i with
  | nil =>
    constructor
    · intro h
      exact Option.noConfusion h
    · rintro ⟨pre, post, hsplit, -, -⟩
      exact absurd hsplit (by cases pre <;> simp)
  | cons a rest ih =>
    simp only [rfindIdx]
    cases hr : rfindIdx c rest with
    | some j =>
      constructor
      · intro h
        obtain rfl : j + 1 = i := Option.some.inj h
        obtain ⟨pre, post, hsplit, hlen, hpost⟩ := (ih j).mp hr
        exact ⟨a :: pre, post, by rw [hsplit]; rfl, by simp [hlen], hpost⟩
      · rintro ⟨pre, post, hsplit, hlen, hpost⟩
        cases pre with
        | nil =>
          simp only [List.nil_append] at hsplit
          obtain ⟨-, hrp⟩ := List.cons.inj hsplit
          have hmem : c ∈ rest := by
            by_contra hc
            rw [(rfindIdx_eq_none_iff c rest).mpr hc] at hr
            exact Option.noConfusion hr
          rw [hrp] at hmem
          exact absurd hmem hpost
        | cons b pre2 =>
          simp only [List.cons_append] at hsplit
          obtain ⟨-, hrest⟩ := List.cons.inj hsplit
          have h2 : rfindIdx c rest = some pre2.length :=
            (ih pre2.length).mpr ⟨pre2, post, hrest, rfl, hpost⟩
          rw [hr] at h2
          obtain rfl : j = pre2.length := Option.some.inj h2
          simp only [List.length_cons] at hlen
          show some (pre2.length + 1) = some i
          rw [hlen]
    | none =>
      have hnm : c ∉ rest := (rfindIdx_eq_none_iff c rest).mp hr
      by_cases hac : a = c
      · rw [if_pos hac]
        constructor
        · intro h
          obtain rfl : 0 = i := Option.some.inj h
          exact ⟨[], rest, by simp [hac], rfl, hnm⟩
        · rintro ⟨pre, post, hsplit, hlen, hpost⟩
          cases pre with
          | nil =>
            simp only [List.length_nil] at hlen
            rw [← hlen]
          | cons b pre2 =>
            simp only [List.cons_append] at hsplit
            obtain ⟨-, hrest⟩ := List.cons.inj hsplit
            have hmem : c ∈ rest := by
              rw [hrest]
              exact List.mem_append_right pre2 (List.mem_cons_self c post)
            exact absurd hmem hnm
      · rw [if_neg hac]
        constructor
        · intro h
          exact Option.noConfusion h
        · rintro ⟨pre, post, hsplit, -, hpost⟩
          cases pre with
          | nil =>
            simp only [List.nil_append] at hsplit
            obtain ⟨rfl, -⟩ := List.cons.inj hsplit
            exact absurd rfl hac
          | cons b pre2 =>
            simp only [List.cons_append] at hsplit
            obtain ⟨-, hrest⟩ := List.cons.inj hsplit
            have hmem : c ∈ rest := by
              rw [hrest]
              exact List.mem_append_right pre2 (List.mem_cons_self c post)
            exact absurd hmem hnm

/-- C4: `parse_principal_name` returns the substring after the last slash
exactly when the input splits as `pre ++ slash ++ t` with `t` the nonempty
slash-free tail and `pre` case-insensitively ending with
`providers/Microsoft.ManagedIdentity/userAssignedIdentities`; every other
input (empty, slashless, empty tail, mismatched provider segment) yields
nothing. -/
theorem c4_parse_principal_name_iff (s t : Chars) :
    parse_principal_name s = some t ↔
      ∃ pre, s = pre ++ '/' :: t ∧ '/' ∉ t ∧ t ≠ [] ∧
        ("providers/Microsoft.ManagedIdentity/userAssignedIdentities".toList.map Char.toLower)
          <:+ (pre.map Char.toLower) := by
  have hseg : USER_ASSIGNED_SEG =
      "providers/Microsoft.ManagedIdentity/userAssignedIdentities".toList.map Char.toLower := by
    decide
  constructor
  · intro h
    simp only [parse_principal_name] at h
    cases he : s.isEmpty with
    | true => rw [he] at h; exact Option.noConfusion h
    | false =>
      rw [he] at h
      simp only [Bool.false_eq_true, if_false] at h
      cases hr : rfindIdx '/' s with
      | none => rw [hr] at h; exact Option.noConfusion h
      | some i =>
        rw [hr] at h
        obtain ⟨pre, post, hsplit, hlen, hpost⟩ := (rfindIdx_eq_some_iff '/' s i).mp hr
        have htake : s.take i = pre := by
          rw [hsplit]
          exact List.take_left' hlen
        have hdrop : s.drop (i + 1) = post := by
          rw [hsplit, show pre ++ '/' :: post = (pre ++ ['/']) ++ post from by simp]
          exact List.drop_left' (by simp [hlen])
        have h2 : (if ((s.drop (i + 1)).isEmpty ||
              !(USER_ASSIGNED_SEG.isSuffixOf ((s.take i).map Char.toLower))) = true then
            (none : Option Chars)
          else some (s.drop (i + 1))) = some t := h
        rw [htake, hdrop] at h2
        cases hcond : (post.isEmpty || !(USER_ASSIGNED_SEG.isSuffixOf (pre.map Char.toLower))) with
        | true => simp [hcond] at h2
        | false =>
          simp only [hcond, Bool.false_eq_true, if_false] at h2
          obtain rfl : post = t := Option.some.inj h2
          obtain ⟨hpe, hsuf⟩ := Bool.or_eq_false_iff.mp hcond
          refine ⟨pre, hsplit, hpost, ?_, ?_⟩
          · exact fun hnil => by rw [hnil] at hpe; exact Bool.noConfusion hpe
          · rw [← hseg]
            exact List.isSuffixOf_iff_suffix.mp (by simpa using hsuf)
  · rintro ⟨pre, rfl, hpost, hne, hsuf⟩
    have hse : (pre ++ '/' :: t).isEmpty = false :=
      List.isEmpty_eq_false.mpr (by simp)
    have hr : rfindIdx '/' (pre ++ '/' :: t) = some pre.length :=
      (rfindIdx_eq_some_iff _ _ _).mpr ⟨pre, t, rfl, rfl, hpost⟩
    have htake : (pre ++ '/' :: t).take pre.length = pre := List.take_left' rfl
    have hdrop : (pre ++ '/' :: t).drop (pre.length + 1) = t := by
      rw [show pre ++ '/' :: t = (pre ++ ['/']) ++ t from by simp]
      exact List.drop_left' (by simp)
    have hpe : t.isEmpty = false := List.isEmpty_eq_false.mpr hne
    have hsufb : USER_ASSIGNED_SEG.isSuffixOf (pre.map Char.toLower) = true := by
      rw [hseg]
      exact List.isSuffixOf_iff_suffix.mpr hsuf
    simp only [parse_principal_name, hse, hr, htake, hdrop, hpe, hsufb]
    simp

theorem core_ok_password (credential : Cred) (ci : ConnInfo)
    (h : (Core.get_entra_conninfo credential).1 = Except.ok ci) :
    ci.password = credential AZURE_DB_FOR_POSTGRES_SCOPE := by
  simp only [Core.get_entra_conninfo] at h
  repeat' split at h
  any_goals (obtain rfl := Except.ok.inj h)
  all_goals simp_all

theorem core_async_ok_password (credential : Cred) (ci : ConnInfo)
    (h : (Core.get_entra_conninfo_async credential).1 = Except.ok ci) :
    ci.password = credential AZURE_DB_FOR_POSTGRES_SCOPE := by
  simp only [Core.get_entra_conninfo_async] at h
  repeat' split at h
  any_goals (obtain rfl := Except.ok.inj h)
  all_goals simp_all

theorem psycopg2_ok_password (credential : Cred) (ci : ConnInfo)
    (h : (Psycopg2.get_entra_conninfo credential).1 = Except.ok ci) :
    ci.password = credential AZURE_DB_FOR_POSTGRES_SCOPE := by
  simp only [Psycopg2.get_entra_conninfo] at h
  repeat' split at h
  any_goals (obtain rfl := Except.ok.inj h)
  all_goals simp_all

/-- C5 counterexample: `connect_with_entra` called with an explicit
`password` (`"mypw"`) but no `user` overwrites the supplied password with
the freshly acquired token — the supplied password is not passed through
unchanged. -/
theorem c5_counterexample :
    Psycopg2.connect_with_entra credUpn none (some (JVal.jstr ("mypw".toList))) =
      (Except.ok (some (JVal.jstr ("u".toList)), some (JVal.jstr tokUpnU)),
        [AZURE_DB_FOR_POSTGRES_SCOPE]) ∧
    some (JVal.jstr tokUpnU) ≠ some (JVal.jstr ("mypw".toList)) := by
  decide

/-- C5 as amended: an explicitly supplied (truthy) `user` is never
overwritten by any adapter; an explicitly supplied `password` is passed
through unchanged by the SQLAlchemy listener in every combination, but by
the psycopg adapters only when the `user` is also supplied — when the
`user` is missing they replace the supplied password with the token. -/
theorem c5_amended_supplied_fields (credential : Cred)
    (user password pw_user pw_password : Option JVal)
    (r2 r3 r3a rS : Option JVal × Option JVal) (l2 l3 l3a lS : List String)
    (hu : truthyOpt user = true)
    (h2 : Psycopg2.connect_with_entra credential user password = (Except.ok r2, l2))
    (h3 : Psycopg3.SyncEntraConnection_connect credential user password = (Except.ok r3, l3))
    (h3a : Psycopg3.AsyncEntraConnection_connect credential user password = (Except.ok r3a, l3a))
    (hS : Sqlalchemy.provide_token credential pw_user pw_password = (Except.ok rS, lS)) :
    r2.1 = user ∧ r3.1 = user ∧ r3a.1 = user ∧
    (truthyOpt password = true → r2.2 = password ∧ r3.2 = password ∧ r3a.2 = password) ∧
    (truthyOpt password = false →
      r2.2 = some (JVal.jstr (credential AZURE_DB_FOR_POSTGRES_SCOPE)) ∧
      r3.2 = some (JVal.jstr (credential AZURE_DB_FOR_POSTGRES_SCOPE)) ∧
      r3a.2 = some (JVal.jstr (credential AZURE_DB_FOR_POSTGRES_SCOPE))) ∧
    (pw_user.isSome = true → rS.1 = pw_user) ∧
    (pw_password.isSome = true → rS.2 = pw_password) := by
  have hsql : (pw_user.isSome = true → rS.1 = pw_user) ∧
      (pw_password.isSome = true → rS.2 = pw_password) := by
    by_cases hc : (!pw_user.isSome || !pw_password.isSome) = true
    · rcases hP : Core.get_entra_conninfo credential with ⟨res, log⟩
      rw [Sqlalchemy.provide_token, hc, hP] at hS
      simp only [if_true] at hS
      cases res with
      | error e =>
        by_cases hw : (e.cls = ErrClass.tokenDecodeError ∨
            e.cls = ErrClass.usernameExtractionError ∨ e.cls = ErrClass.scopePermissionError)
        · simp [hw] at hS
        · simp [hw] at hS
      | ok ci =>
        simp only [Prod.mk.injEq] at hS
        obtain ⟨hok, -⟩ := hS
        obtain rfl : (if !pw_user.isSome then some ci.user else pw_user,
            if !pw_password.isSome then some (JVal.jstr ci.password) else pw_password) = rS :=
          Except.ok.inj hok
        constructor
        · intro hus
          simp [hus]
        · intro hps
          simp [hps]
    · rw [Sqlalchemy.provide_token] at hS
      rw [Bool.not_eq_true] at hc
      rw [hc] at hS
      simp only [Bool.false_eq_true, if_false, Prod.mk.injEq] at hS
      obtain ⟨hok, -⟩ := hS
      obtain rfl : (pw_user, pw_password) = rS := Except.ok.inj hok
      exact ⟨fun _ => rfl, fun _ => rfl⟩
  cases hpw : truthyOpt password with
  | true =>
    have hc : (!truthyOpt user || !truthyOpt password) = false := by simp [hu, hpw]
    rw [Psycopg2.connect_with_entra, hc] at h2
    rw [Psycopg3.SyncEntraConnection_connect, hc] at h3
    rw [Psycopg3.AsyncEntraConnection_connect, hc] at h3a
    simp only [Bool.false_eq_true, if_false, Prod.mk.injEq] at h2 h3 h3a
    obtain rfl : (user, password) = r2 := Except.ok.inj h2.1
    obtain rfl : (user, password) = r3 := Except.ok.inj h3.1
    obtain rfl : (user, password) = r3a := Except.ok.inj h3a.1
    exact ⟨rfl, rfl, rfl, fun _ => ⟨rfl, rfl, rfl⟩, fun hf => Bool.noConfusion hf, hsql.1, hsql.2⟩
  | false =>
    have hc : (!truthyOpt user || !truthyOpt password) = true := by simp [hpw]
    rcases hP2 : Psycopg2.get_entra_conninfo credential with ⟨res2, log2⟩
    rcases hPc : Core.get_entra_conninfo credential with ⟨resc, logc⟩
    rcases hPa : Core.get_entra_conninfo_async credential with ⟨resa, loga⟩
    rw [Psycopg2.connect_with_entra, hc, hP2] at h2
    rw [Psycopg3.SyncEntraConnection_connect, hc, hPc] at h3
    rw [Psycopg3.AsyncEntraConnection_connect, hc, hPa] at h3a
    simp only [if_true] at h2 h3 h3a
    cases res2 with
    | error e => simp at h2
    | ok ci2 =>
      cases resc with
      | error e => simp at h3
      | ok cic =>
        cases resa with
        | error e => simp at h3a
        | ok cia =>
          simp only [Prod.mk.injEq] at h2 h3 h3a
          obtain rfl : (if !truthyOpt user then some ci2.user else user,
              some (JVal.jstr ci2.password)) = r2 := Except.ok.inj h2.1
          obtain rfl : (if !truthyOpt user then some cic.user else user,
              some (JVal.jstr cic.password)) = r3 := Except.ok.inj h3.1
          obtain rfl : (if !truthyOpt user then some cia.user else user,
              some (JVal.jstr cia.password)) = r3a := Except.ok.inj h3a.1
          have hpw2 : ci2.password = credential AZURE_DB_FOR_POSTGRES_SCOPE :=
            psycopg2_ok_password credential ci2 (by rw [hP2])
          have hpwc : cic.password = credential AZURE_DB_FOR_POSTGRES_SCOPE :=
            core_ok_password credential cic (by rw [hPc])
          have hpwa : cia.password = credential AZURE_DB_FOR_POSTGRES_SCOPE :=
            core_async_ok_password credential cia (by rw [hPa])
          refine ⟨by simp [hu], by simp [hu], by simp [hu],
            fun ht => absurd ht (by simp [hpw]), fun _ => ?_, hsql.1, hsql.2⟩
          exact ⟨by simp [hpw2], by simp [hpwc], by simp [hpwa]⟩

/-- C5 amended witness: with user `"alice"` supplied and no password, all
adapters keep the supplied user and use the token as password; the
SQLAlchemy listener keeps both supplied fields. -/
theorem c5_amended_supplied_fields_witness :
    (some (JVal.jstr ("alice".toList)), some (JVal.jstr tokUpnU)).1 =
      some (JVal.jstr ("alice".toList)) ∧
    (some (JVal.jstr ("alice".toList)), some (JVal.jstr ("pw".toList))).2 =
      some (JVal.jstr ("pw".toList)) := by
  have h := c5_amended_supplied_fields credUpn
    (some (JVal.jstr ("alice".toList))) none
    (some (JVal.jstr ("alice".toList))) (some (JVal.jstr ("pw".toList)))
    (some (JVal.jstr ("alice".toList)), some (JVal.jstr tokUpnU))
    (some (JVal.jstr ("alice".toList)), some (JVal.jstr tokUpnU))
    (some (JVal.jstr ("alice".toList)), some (JVal.jstr tokUpnU))
    (some (JVal.jstr ("alice".toList)), some (JVal.jstr ("pw".toList)))
    [AZURE_DB_FOR_POSTGRES_SCOPE] [AZURE_DB_FOR_POSTGRES_SCOPE]
    [AZURE_DB_FOR_POSTGRES_SCOPE] []
    (by decide) (by decide) (by decide) (by decide) (by decide)
  exact ⟨h.1, h.2.2.2.2.2.2 (by decide)⟩

/-- C6: when both `user` and `password` are supplied (truthy, and for the
SQLAlchemy listener, present), no adapter requests a token — the request
log is empty — and the connection parameters are exactly the supplied
pair. -/
theorem c6_no_token_request_when_both_supplied (credential : Cred)
    (user password : Option JVal)
    (hu : truthyOpt user = true) (hp : truthyOpt password = true) :
    Psycopg2.connect_with_entra credential user password = (Except.ok (user, password), []) ∧
    Psycopg3.SyncEntraConnection_connect credential user password =
      (Except.ok (user, password), []) ∧
    Psycopg3.AsyncEntraConnection_connect credential user password =
      (Except.ok (user, password), []) ∧
    Psycopg3.AsyncEntraConnection_connect_wrapping credential user password =
      (Except.ok (user, password), []) ∧
    Sqlalchemy.provide_token credential user password = (Except.ok (user, password), []) := by
  have hus : user.isSome = true := by cases user <;> simp_all [truthyOpt]
  have hps : password.isSome = true := by cases password <;> simp_all [truthyOpt]
  have hc : (!truthyOpt user || !truthyOpt password) = false := by simp [hu, hp]
  have hcs : (!user.isSome || !password.isSome) = false := by simp [hus, hps]
  refine ⟨?_, ?_, ?_, ?_, ?_⟩
  · rw [Psycopg2.connect_with_entra, hc]
    simp
  · rw [Psycopg3.SyncEntraConnection_connect, hc]
    simp
  · rw [Psycopg3.AsyncEntraConnection_connect, hc]
    simp
  · rw [Psycopg3.AsyncEntraConnection_connect_wrapping, hc]
    simp
  · rw [Sqlalchemy.provide_token, hcs]
    simp

/-- C6 witness: both fields supplied, every adapter returns them untouched
with an empty request log. -/
theorem c6_no_token_request_when_both_supplied_witness :
    Psycopg2.connect_with_entra credNoUser
        (some (JVal.jstr ("alice".toList))) (some (JVal.jstr ("pw".toList))) =
      (Except.ok (some (JVal.jstr ("alice".toList)), some (JVal.jstr ("pw".toList))), []) ∧
    Sqlalchemy.provide_token credNoUser
        (some (JVal.jstr ("alice".toList))) (some (JVal.jstr ("pw".toList))) =
      (Except.ok (some (JVal.jstr ("alice".toList)), some (JVal.jstr ("pw".toList))), []) := by
  have h := c6_no_token_request_when_both_supplied credNoUser
    (some (JVal.jstr ("alice".toList))) (some (JVal.jstr ("pw".toList)))
    (by decide) (by decide)
  exact ⟨h.1, h.2.2.2.2⟩

theorem splitOnDot_eq_single (t : Chars) (h : '.' ∉ t) : splitOnDot t = [t] := by
  induction t with
  | nil => rfl
  | cons c rest ih =>
    have hc : ¬(c = '.') := fun hcc => h (hcc ▸ List.mem_cons_self c rest)
    have hrest : '.' ∉ rest := fun hm => h (List.mem_cons_of_mem c hm)
    simp only [splitOnDot, ih hrest, if_neg hc]

/-- C8 counterexample: the two-segment token `"h.e30"` (payload the empty
JSON object) does not have the three-segment shape, yet the psycopg2
`decode_jwt` decodes it without any error. -/
theorem c8_counterexample :
    (splitOnDot ("h.e30".toList)).length ≠ 3 ∧
    Psycopg2.decode_jwt ("h.e30".toList) = Except.ok [] := by
  decide

/-- C8 as amended: the core `decode_jwt` (PyJWT, modelled from the spec)
fails on every token without the three-segment shape and the core
resolution reports a DB-token decode failure immediately, with no second
token request; the psycopg2 `decode_jwt`, however, only requires a dot —
it raises `IndexError` for dotless tokens but accepts any token with two
or more segments whose second segment decodes. -/
theorem c8_amended_decode_failures (t : Chars) (credential : Cred)
    (h3 : (splitOnDot t).length ≠ 3)
    (hd : Core.decode_jwt (credential AZURE_DB_FOR_POSTGRES_SCOPE) = none) :
    Core.decode_jwt t = none ∧
    Core.get_entra_conninfo credential =
      (Except.error ⟨ErrClass.valueError, "Invalid DB token format"⟩,
        [AZURE_DB_FOR_POSTGRES_SCOPE]) ∧
    ('.' ∉ t →
      Psycopg2.decode_jwt t =
        Except.error ⟨ErrClass.indexError, "list index out of range"⟩) := by
  refine ⟨?_, ?_, ?_⟩
  · simp only [Core.decode_jwt]
    cases hs : splitOnDot t with
    | nil => rfl
    | cons a l1 =>
      cases l1 with
      | nil => rfl
      | cons b l2 =>
        cases l2 with
        | nil => rfl
        | cons c l3 =>
          cases l3 with
          | nil => exact absurd (by rw [hs]; rfl) h3
          | cons d l4 => rfl
  · simp [Core.get_entra_conninfo, hd]
  · intro hnd
    simp only [Psycopg2.decode_jwt, splitOnDot_eq_single t hnd]

/-- C8 amended witness: a dotless token fails both decoders, and a
credential returning it is rejected after a single request. -/
theorem c8_amended_decode_failures_witness :
    Core.decode_jwt ("nodots".toList) = none ∧
    Core.get_entra_conninfo (fun _ => "nodots".toList) =
      (Except.error ⟨ErrClass.valueError, "Invalid DB token format"⟩,
        [AZURE_DB_FOR_POSTGRES_SCOPE]) ∧
    Psycopg2.decode_jwt ("nodots".toList) =
      Except.error ⟨ErrClass.indexError, "list index out of range"⟩ := by
  have h := c8_amended_decode_failures ("nodots".toList) (fun _ => "nodots".toList)
    (by decide) (by decide)
  exact ⟨h.1, h.2.1, h.2.2 (by decide)⟩
